import Mathlib

/-!
Verification development for the triage-and-response decision engine of the
MThesis repository: the heuristic scan engine with per-rule emission caps and
stateful correlation (annotation_suggester.py), the bounded result cache
(intelligence/core/cache.py), the rule-based scorer (intelligence/scorers/rule.py),
the rule-based planner and its hybrid fallback (intelligence/planners/rule.py,
intelligence/planners/hybrid.py), and the service plan endpoint
(intelligence/app.py).

Modelling conventions:
- Python dicts are insertion-ordered association lists; updating an existing
  key rewrites its value in place, inserting a new key appends it.
- JSON values (the dynamic values flowing through the code) are the inductive
  type JVal.  Python float literals of the source are modelled as rationals.
- Fallible Python code (code that can raise) is embedded as Option-returning
  functions, with none standing for an uncaught exception.
- json.loads is passed explicitly as a parameter (loads : String -> Option JVal),
  with none standing for json.JSONDecodeError.
-/

inductive JVal where
  | null
  | bool (b : Bool)
  | int (n : Int)
  | float (q : Rat)
  | str (s : String)
  | arr (elems : List JVal)
  | obj (fields : List (String × JVal))
deriving Repr

/-- Python truthiness of a JSON-like value (bool(x)): None, False, zero,
empty string, empty list and empty dict are falsy. -/
def pyTruthy : JVal → Bool
  | .null => false
  | .bool b => b
  | .int n => n != 0
  | .float q => q != 0
  | .str s => s != ""
  | .arr l => !l.isEmpty
  | .obj l => !l.isEmpty

/-- Numeric view of a value: Python treats bool as an int subclass and
compares int and float numerically. -/
def jvNum : JVal → Option Rat
  | .bool b => some (if b then 1 else 0)
  | .int n => some (n : Rat)
  | .float q => some q
  | _ => none

mutual

/-- Python equality (==) on JSON-like values: numeric values compare by
value across bool/int/float; other values compare structurally.  (Python
dict equality ignores key order; the source only ever compares scalars, so
the structural comparison of containers is an inessential modelling choice.) -/
def jvEqB : JVal → JVal → Bool
  | .bool a, .bool b => a == b
  | .bool a, .int b => decide ((if a then (1 : Rat) else 0) = (b : Rat))
  | .bool a, .float b => decide ((if a then (1 : Rat) else 0) = b)
  | .int a, .bool b => decide ((a : Rat) = (if b then (1 : Rat) else 0))
  | .int a, .int b => a == b
  | .int a, .float b => decide ((a : Rat) = b)
  | .float a, .bool b => decide (a = (if b then (1 : Rat) else 0))
  | .float a, .int b => decide (a = (b : Rat))
  | .float a, .float b => a == b
  | .null, .null => true
  | .str a, .str b => a == b
  | .arr as, .arr bs => jvEqListB as bs
  | .obj as, .obj bs => jvEqObjB as bs
  | _, _ => false

def jvEqListB : List JVal → List JVal → Bool
  | [], [] => true
  | a :: as, b :: bs => jvEqB a b && jvEqListB as bs
  | _, _ => false

def jvEqObjB : List (String × JVal) → List (String × JVal) → Bool
  | [], [] => true
  | (k, a) :: as, (l, b) :: bs => k == l && jvEqB a b && jvEqObjB as bs
  | _, _ => false

end

/-- Lookup in an insertion-ordered association list (dict access by key). -/
def assocFind {V : Type} : List (String × V) → String → Option V
  | [], _ => none
  | (k, v) :: rest, key => if k = key then some v else assocFind rest key

/-- In-place value update of an existing key (dict assignment to a present
key keeps its position). -/
def assocUpdate {V : Type} : List (String × V) → String → V → List (String × V)
  | [], _, _ => []
  | (k, v) :: rest, key, nv => if k = key then (k, nv) :: rest else (k, v) :: assocUpdate rest key nv

/-- dict.pop(key, None): drop the binding of the key (keys are unique, so
dropping the first occurrence). -/
def assocErase {V : Type} : List (String × V) → String → List (String × V)
  | [], _ => []
  | (k, v) :: rest, key => if k = key then rest else (k, v) :: assocErase rest key

/-- dict.get(key) on a JSON object: first binding of the key, none when the
receiver is not a dict or the key is absent. -/
def jGet : JVal → String → Option JVal
  | .obj kvs, key => assocFind kvs key
  | _, _ => none

/-- Python `x or default` where x is an optional value: keep x when it is
present and truthy, otherwise the default. -/
def pyOrJ (x : Option JVal) (default : JVal) : JVal :=
  match x with
  | some v => if pyTruthy v then v else default
  | none => default

/-- Python `x or y` where both sides are optional values. -/
def pyOrOJ (x y : Option JVal) : Option JVal :=
  match x with
  | some v => if pyTruthy v then some v else y
  | none => y

/-- Truthiness of an optional value (absent values are falsy). -/
def pyTruthyO : Option JVal → Bool
  | some v => pyTruthy v
  | none => false

/-- str.split(sep) for a one-character separator (get_path only ever
splits on "."). -/
def splitOnChar (sep : Char) (s : String) : List String :=
  (s.data.foldr
    (fun c acc =>
      match acc with
      | h :: t => if c = sep then [] :: h :: t else (c :: h) :: t
      | [] => [[c]])
    [[]]).map String.mk

/-- intelligence/core/utils.py get_path: walk a dotted path through nested
dicts, returning None when a step is not a dict or the key is missing. -/
def get_path (obj : JVal) (path : String) : Option JVal :=
  (splitOnChar '.' path).foldl (fun cur part => cur.bind (fun c => jGet c part)) (some obj)

/-- str.lower() (the source only lower-cases ASCII text). -/
def strLower (s : String) : String := String.mk (s.data.map Char.toLower)

/-- Python slice s[:n]. -/
def strTake (s : String) (n : Nat) : String := String.mk (s.data.take n)

/-- Python substring test (needle in hay). -/
def containsSub (hay needle : String) : Bool :=
  (List.range (hay.data.length + 1)).any (fun i => needle.data.isPrefixOf (hay.data.drop i))

/-- annotation_suggester.py parse_json_field: empty strings and strings the
JSON parser rejects both degrade to an empty dict; a successful parse is
returned as is.  loads models json.loads (none = JSONDecodeError). -/
def parse_json_field (loads : String → Option JVal) (value : String) : JVal :=
  if value = "" then .obj []
  else
    match loads value with
    | some v => v
    | none => .obj []

/-! ## intelligence/core/cache.py (LruCache) -/

structure LruCache (V : Type) where
  max_size : Nat
  store : List (String × V)
  order : List String
deriving Repr

/-- LruCache.__init__: negative capacities clamp to 0. -/
def LruCache.mkCache (V : Type) (max_size : Int) : LruCache V :=
  { max_size := (max max_size 0).toNat, store := [], order := [] }

/-- LruCache.get: a pure read of the store (the source method performs no
mutation, so the embedding returns only the value). -/
def LruCache.get {V : Type} (c : LruCache V) (key : String) : Option V :=
  assocFind c.store key

/-- The eviction loop of LruCache.set: while the ordered-key list is longer
than the capacity, pop its head and drop that key from the store. -/
def evictWhile {V : Type} (store : List (String × V)) (order : List String) (maxSize : Nat) :
    List (String × V) × List String :=
  match order with
  | [] => (store, [])
  | o :: rest =>
      if rest.length + 1 > maxSize then evictWhile (assocErase store o) rest maxSize
      else (store, o :: rest)

/-- LruCache.set: no-op at capacity 0; value update in place for a present
key; otherwise append the new binding and key, then run the eviction loop. -/
def LruCache.set {V : Type} (c : LruCache V) (key : String) (value : V) : LruCache V :=
  if c.max_size ≤ 0 then c
  else if (assocFind c.store key).isSome then
    { c with store := assocUpdate c.store key value }
  else
    let store1 := c.store ++ [(key, value)]
    let order1 := c.order ++ [key]
    let p := evictWhile store1 order1 c.max_size
    { c with store := p.1, order := p.2 }

/-- LruCache.count: number of stored entries. -/
def LruCache.count {V : Type} (c : LruCache V) : Nat := c.store.length

/-- Insert keys in order, each with the value given by f (the insertion
scenario of the cache law). -/
def insertAll {V : Type} (f : String → V) (c : LruCache V) (ks : List String) : LruCache V :=
  ks.foldl (fun cache k => cache.set k (f k)) c

/-! ## intelligence/scorers/rule.py (RuleScorer) -/

/-- _lower_text: join the arguments with spaces (absent or falsy values
contribute the empty string) and lower-case the result; a truthy non-string
argument would raise TypeError in str.join (modelled as none). -/
def _lower_text (values : List (Option JVal)) : Option String :=
  match values.mapM (fun v =>
      match v with
      | none => some ""
      | some jv =>
          if pyTruthy jv then
            match jv with
            | .str s => some s
            | _ => none
          else some "") with
  | some parts => some (strLower (String.intercalate " " parts))
  | none => none

/-- any(key in text for key in ("ransomware", "trojan", "malware")) -/
def malwareHit (text : String) : Bool :=
  containsSub text "ransomware" || containsSub text "trojan" || containsSub text "malware"

/-- any(key in text for key in ("brute force", "bruteforce", "failed login")) -/
def bruteHit (text : String) : Bool :=
  containsSub text "brute force" || containsSub text "bruteforce" || containsSub text "failed login"

/-- "port scan" in text or "scan" in text -/
def scanKeyHit (text : String) : Bool :=
  containsSub text "port scan" || containsSub text "scan"

/-- "benign" in text -/
def benignHit (text : String) : Bool := containsSub text "benign"

/-- isinstance(x, int): Python bools are instances of int. -/
def pyIsInstInt : JVal → Bool
  | .int _ => true
  | .bool _ => true
  | _ => false

/-- The integer behind a value that passed the isinstance(x, int) test. -/
def pyIntOfInst : JVal → Int
  | .int n => n
  | .bool b => if b then 1 else 0
  | _ => 0

/-- _score_rules: priority-ordered keyword checks on the lower-cased
space-joined ruleName and type; fallback to the alert's own severity field
when it is an int (clamped to [0, 100]), else the 40 / 0.5 default.
Returns (severity, confidence, hypothesis, evidence); none models the
TypeError a truthy non-string ruleName/type would raise. -/
def _score_rules (alert : JVal) : Option (Int × Rat × String × List String) :=
  match _lower_text [get_path alert "ruleName", get_path alert "type"] with
  | none => none
  | some text =>
    if malwareHit text then some (85, 0.85, "Likely malware activity.", ["keyword:malware"])
    else if bruteHit text then some (60, 0.7, "Possible brute-force attempts.", ["keyword:bruteforce"])
    else if scanKeyHit text then some (55, 0.65, "Possible scanning activity.", ["keyword:scan"])
    else if benignHit text then some (20, 0.2, "Likely benign noise.", ["keyword:benign"])
    else
      match get_path alert "severity" with
      | some (.int n) => some (min (max n 0) 100, 0.5, "Severity-based assessment.", ["source:severity"])
      | some (.bool b) => some (min (max (if b then (1 : Int) else 0) 0) 100, 0.5, "Severity-based assessment.", ["source:severity"])
      | _ => some (40, 0.5, "Heuristic assessment.", ["source:default"])

/-! ## intelligence/planners/rule.py (RulePlanner) -/

/-- int(x) truncates a float toward zero. -/
def pyTrunc (q : Rat) : Int := if q < 0 then ⌈q⌉ else ⌊q⌋

/-- int(x): ints pass through, bools become 0/1, floats truncate toward
zero.  Other types are modelled as a failure (int(str) is out of scope; the
planner inputs of interest are numeric). -/
def pyToInt : JVal → Option Int
  | .int n => some n
  | .bool b => some (if b then 1 else 0)
  | .float q => some (pyTrunc q)
  | _ => none

/-- float(x) under the same conventions as pyToInt. -/
def pyToFloat : JVal → Option Rat
  | .int n => some (n : Rat)
  | .bool b => some (if b then 1 else 0)
  | .float q => some q
  | _ => none

structure PAction where
  type : String
  risk : Int
  expectedImpact : Int
  reversible : Bool
  parameters : List (String × JVal)
  rationale : String
deriving Repr

/-- The static (risk, expectedImpact, reversible) defaults of _action,
with (50, 50, False) for unrecognized action types. -/
def actionDefaults (action_type : String) : Int × Int × Bool :=
  if action_type = "BlockIp" then (55, 30, true)
  else if action_type = "UnblockIp" then (10, 5, false)
  else if action_type = "IsolateHost" then (70, 60, true)
  else if action_type = "UnisolateHost" then (15, 10, false)
  else if action_type = "DisableUser" then (65, 50, true)
  else if action_type = "EnableUser" then (15, 10, false)
  else if action_type = "KillProcess" then (85, 85, false)
  else if action_type = "QuarantineFile" then (85, 85, false)
  else if action_type = "OpenTicket" then (5, 5, false)
  else if action_type = "Notify" then (5, 5, false)
  else if action_type = "CollectForensics" then (35, 20, false)
  else (50, 50, false)

/-- _action: stamp an action with its catalog metadata. -/
def _action (action_type : String) (rationale : String) (parameters : List (String × JVal)) : PAction :=
  let d := actionDefaults action_type
  { type := action_type, risk := d.1, expectedImpact := d.2.1, reversible := d.2.2,
    parameters := parameters, rationale := rationale }

/-- The rollback_map of _build_rollbacks. -/
def rollback_map (t : String) : Option String :=
  if t = "BlockIp" then some "UnblockIp"
  else if t = "IsolateHost" then some "UnisolateHost"
  else if t = "DisableUser" then some "EnableUser"
  else none

/-- _build_rollbacks: walk the forward actions in reverse and append an
inverse action (same parameters) for each type with a registered inverse. -/
def _build_rollbacks (actions : List PAction) : List PAction :=
  actions.reverse.foldl
    (fun acc a =>
      match rollback_map a.type with
      | some rt => acc ++ [_action rt ("Rollback for " ++ a.type) a.parameters]
      | none => acc)
    []

/-- _compute_priority: severity + criticality*10 + int(confidence*20),
clamped to [0, 100]. -/
def _compute_priority (severity : Int) (confidence : Rat) (criticality : Int) : Int :=
  let base := severity + criticality * 10
  let boosted := base + pyTrunc (confidence * 20)
  min (max boosted 0) 100

/-- The strategy decision ladder of _plan_from_rules (first match wins). -/
def selectStrategy (severity : Int) (confidence : Rat) (criticality : Int) (privileged : Bool) : String :=
  if confidence < 0.3 then "ObserveMore"
  else if (criticality ≥ 4 ∨ privileged = true) ∧ confidence < 0.85 then "EscalateToHuman"
  else if confidence ≥ 0.85 ∧ severity ≥ 70 then "ContainAndCollect"
  else if confidence ≥ 0.6 ∧ severity ≥ 50 then "Contain"
  else "NotifyOnly"

/-- A generated plan.  planId (a fresh uuid), summary and rationale (display
strings embedding a 2-decimal rendering of the confidence) and the
tags.generatedAt timestamp are nondeterministic or purely presentational and
are not modelled; no verified property mentions them. -/
structure Plan where
  strategy : String
  priority : Int
  actions : List PAction
  rollbackActions : List PAction
  tagsEnvironment : JVal
deriving Repr

/-- The pure core of _plan_from_rules after input extraction: strategy
selection, per-strategy action generation, rollbacks and priority. -/
def mkPlanCore (severity : Int) (confidence : Rat) (criticality : Int) (privileged : Bool)
    (src_ip username host_id : Option JVal) (env : JVal) : Plan :=
  let strategy := selectStrategy severity confidence criticality privileged
  let actions :=
    if strategy = "ObserveMore" then
      [_action "OpenTicket" "Create a tracking ticket." []]
    else if strategy = "NotifyOnly" then
      [_action "Notify" "Notify analysts." [], _action "OpenTicket" "Create a tracking ticket." []]
    else if strategy = "Contain" ∨ strategy = "ContainAndCollect" then
      ((if pyTruthyO src_ip then
          [_action "BlockIp" "Block suspicious source IP." [("src_ip", src_ip.getD .null)]]
        else []) ++
       (if pyTruthyO username then
          [_action "DisableUser" "Disable user account." [("username", username.getD .null)]]
        else []) ++
       (if pyTruthyO host_id then
          [_action "IsolateHost" "Isolate host." [("host_id", host_id.getD .null)]]
        else []) ++
       (if strategy = "ContainAndCollect" then
          [_action "CollectForensics" "Collect forensic artifacts." []]
        else [])) ++
      [_action "OpenTicket" "Create a tracking ticket." []]
    else
      [_action "Notify" "Escalate to human analyst." [], _action "OpenTicket" "Create a tracking ticket." []]
  { strategy := strategy,
    priority := _compute_priority severity confidence criticality,
    actions := actions,
    rollbackActions := _build_rollbacks actions,
    tagsEnvironment := env }

/-- _plan_from_rules: extract severity/confidence/criticality (via the
Python int()/float() coercions, defaulting falsy or absent fields to 0),
the privileged flag and the entity fields, then build the plan.  none
models an uncaught coercion failure. -/
def _plan_from_rules (alert assessment : JVal) : Option Plan :=
  match pyToInt (pyOrJ (jGet assessment "severity") (.int 0)),
        pyToFloat (pyOrJ (jGet assessment "confidence") (.float 0.0)),
        pyToInt (pyOrJ (get_path alert "context.assetCriticality") (.int 0)) with
  | some severity, some confidence, some criticality =>
      let privileged := pyTruthyO (get_path alert "context.privileged")
      let src_ip := get_path alert "entities.srcIp"
      let username := get_path alert "entities.username"
      let host_id := pyOrOJ (get_path alert "entities.hostId") (get_path alert "entities.hostname")
      some (mkPlanCore severity confidence criticality privileged src_ip username host_id
        (pyOrJ (get_path alert "context.environment") (.str "unknown")))
  | _, _, _ => none

/-! ## intelligence/planners/hybrid.py (HybridPlanner) -/

inductive PlannerCall where
  | callLocal
  | callRemote
deriving DecidableEq, Repr

/-- HybridPlanner.plan: try the local planner; on any exception try the
remote planner when one is configured; on its failure (or with no remote)
call the local planner a second time, letting its exception propagate.
The local planner is modelled as the sequence of results of its successive
invocations (localResults n = result of invocation n); the remote planner
performs at most one invocation.  The second component records the
invocation order. -/
def hybridPlan {E P : Type} (localResults : Nat → Except E P) (remote : Option (Except E P)) :
    Except E P × List PlannerCall :=
  match localResults 0 with
  | .ok p => (.ok p, [.callLocal])
  | .error _ =>
      match remote with
      | some (.ok p) => (.ok p, [.callLocal, .callRemote])
      | some (.error _) => (localResults 1, [.callLocal, .callRemote, .callLocal])
      | none => (localResults 1, [.callLocal, .callLocal])

/-! ## intelligence/app.py (/v1/plan endpoint) -/

/-- The /v1/plan handler: extract alert and assessment from the payload
(defaulting to empty dicts), invoke the configured planner, and fall back
to RulePlanner on any exception.  The service result cache is part of the
service state and is passed and returned explicitly; the source handler
performs no cache operation, so it is returned unchanged.  The none result
models an exception from the RulePlanner fallback itself (which the route
does not catch). -/
def plan_handler {γ : Type} (planner : JVal → JVal → Except Unit Plan) (cache : LruCache γ)
    (payload : JVal) : Option Plan × LruCache γ :=
  let alert := pyOrJ (jGet payload "alert") (.obj [])
  let assessment := pyOrJ (jGet payload "assessment") (.obj [])
  match planner alert assessment with
  | .ok p => (some p, cache)
  | .error _ => (_plan_from_rules alert assessment, cache)

/-! ## annotation_suggester.py (scan engine) -/

/-- A csv record: column name to raw string value. -/
abbrev Row := List (String × String)

/-- row.get(k): None when the column is absent. -/
def rowGet (row : Row) (k : String) : Option String := assocFind row k

/-- row.get(k, "") (also covering the source's trailing `or ""`). -/
def rowGetS (row : Row) (k : String) : String := (rowGet row k).getD ""

/-- A heuristic rule of the HEURISTICS catalog.  Absent optional entries of
the source dicts are none / the empty list (which is exactly their Python
falsiness). -/
structure Heur where
  name : String
  matcher : Option String
  match_fields : List String
  keywords : List String
  all_keywords : List String
  exclude_keywords : List String
  severity : Option String
  detection_goal : Option String
  example_completion : Option String
deriving Repr

/-- CorrelationContext: a string-keyed dict of matcher-private state.  The
only stateful matcher of the source keeps its identity-to-IP history under
the "login_history" key, so the context is modelled as that single optional
entry (none = the key was never created by setdefault). -/
structure Ctx where
  login_history : Option (List (JVal × JVal))
deriving Repr

/-- history.get(agent_id) under Python == key comparison. -/
def histFind : List (JVal × JVal) → JVal → Option JVal
  | [], _ => none
  | (k, v) :: rest, key => if jvEqB k key then some v else histFind rest key

/-- history[agent_id] = ip: update in place, else append. -/
def histSet : List (JVal × JVal) → JVal → JVal → List (JVal × JVal)
  | [], key, nv => [(key, nv)]
  | (k, v) :: rest, key, nv =>
      if jvEqB k key then (k, nv) :: rest else (k, v) :: histSet rest key nv

/-- login_geo_matcher: parse the agent column, require a truthy identity
(id, falling back to name) and ip; record the current ip in the history
under the identity (both on match and on first sighting) and match exactly
when a different ip was previously recorded. -/
def login_geo_matcher (loads : String → Option JVal) (row : Row) (ctx : Ctx) : Bool × Ctx :=
  let agent_data := parse_json_field loads (rowGetS row "agent")
  let agent_id := pyOrOJ (jGet agent_data "id") (jGet agent_data "name")
  let ip := jGet agent_data "ip"
  match agent_id, ip with
  | some aid, some ipv =>
      if pyTruthy aid && pyTruthy ipv then
        let history := ctx.login_history.getD []
        let previous_ip := histFind history aid
        let matched :=
          match previous_ip with
          | some prev => pyTruthy prev && !jvEqB prev ipv
          | none => false
        (matched, { login_history := some (histSet history aid ipv) })
      else (false, ctx)
  | _, _ => (false, ctx)

/-- text_contains_any: case-insensitive keyword containment. -/
def text_contains_any (text : String) (keywords : List String) : Bool :=
  keywords.any (fun k => containsSub (strLower text) (strLower k))

/-- text_contains_all. -/
def text_contains_all (text : String) (keywords : List String) : Bool :=
  keywords.all (fun k => containsSub (strLower text) (strLower k))

/-- "description" field text: rule.get("description", "") if rule else ""
(a non-string description, which would raise later in Python, is modelled
as ""). -/
def jStrD (v : Option JVal) : String :=
  match v with
  | some (.str s) => s
  | _ => ""

/-- The text a match field contributes: the raw rule column, the parsed
rule description, the full log body, or an arbitrary named column. -/
def heurFieldText (row : Row) (rule : JVal) (field : String) : String :=
  if field = "rule" then rowGetS row "rule"
  else if field = "description" then (if pyTruthy rule then jStrD (jGet rule "description") else "")
  else if field = "full_log" then rowGetS row "full_log"
  else rowGetS row field

/-- One iteration of the field loop of match_heuristic: skip the field on
an exclusion hit or a failed all-of check, qualify on any required
keyword. -/
def fieldQualifies (heur : Heur) (field_text : String) : Bool :=
  let ft := strLower field_text
  if !heur.exclude_keywords.isEmpty && text_contains_any ft heur.exclude_keywords then false
  else if !heur.all_keywords.isEmpty && !text_contains_all ft heur.all_keywords then false
  else !heur.keywords.isEmpty && text_contains_any ft heur.keywords

/-- match_heuristic: dispatch custom matchers by name (only
login_geo_matcher is registered; unknown names never match), otherwise
match when any configured field qualifies.  Only the custom-matcher path
can touch the context. -/
def match_heuristic (loads : String → Option JVal) (row : Row) (rule : JVal) (heur : Heur)
    (ctx : Ctx) : Bool × Ctx :=
  let kwMatch := heur.match_fields.any (fun f => fieldQualifies heur (heurFieldText row rule f))
  match heur.matcher with
  | some m =>
      if m = "" then (kwMatch, ctx)
      else if m = "login_geo_matcher" then login_geo_matcher loads row ctx
      else (false, ctx)
  | none => (kwMatch, ctx)

structure Candidate where
  dataset_id : Option String
  timestamp : Option String
  heuristic : String
  severity : String
  detection_goal : Option String
  rule_description : String
  log_excerpt : String
  example_completion : Option String
deriving DecidableEq, Repr

/-- build_candidate. -/
def build_candidate (row : Row) (heur : Heur) (rule : JVal) : Candidate :=
  { dataset_id := rowGet row "id",
    timestamp := rowGet row "timestamp",
    heuristic := heur.name,
    severity := heur.severity.getD "info",
    detection_goal := heur.detection_goal,
    rule_description := if pyTruthy rule then jStrD (jGet rule "description") else "",
    log_excerpt := strTake (rowGetS row "full_log") 200,
    example_completion := heur.example_completion }

/-- The mutable state of one scan_logs pass. -/
structure ScanState where
  candidates : List Candidate
  counts : List (String × Nat)
  ctx : Ctx
deriving Repr

/-- counts[name] of the defaultdict(int). -/
def countsGet (counts : List (String × Nat)) (name : String) : Nat :=
  (assocFind counts name).getD 0

/-- counts[name] += 1. -/
def countsBump (counts : List (String × Nat)) (name : String) : List (String × Nat) :=
  if (assocFind counts name).isSome then assocUpdate counts name (countsGet counts name + 1)
  else counts ++ [(name, countsGet counts name + 1)]

/-- The per-heuristic body of the scan loop: skip the rule entirely once
its emission count has reached a positive cap; otherwise evaluate it
(updating the context) and emit a candidate on a match. -/
def scanHeurStep (loads : String → Option JVal) (cap : Int) (row : Row) (rule : JVal)
    (st : ScanState) (heur : Heur) : ScanState :=
  if 0 < cap ∧ cap ≤ (countsGet st.counts heur.name : Int) then st
  else
    let p := match_heuristic loads row rule heur st.ctx
    if p.1 then
      { candidates := st.candidates ++ [build_candidate row heur rule],
        counts := countsBump st.counts heur.name,
        ctx := p.2 }
    else { st with ctx := p.2 }

/-- Process one record: parse its rule column once, then run every
heuristic of the catalog in order. -/
def scanRow (loads : String → Option JVal) (catalog : List Heur) (cap : Int) (st : ScanState)
    (row : Row) : ScanState :=
  let rule := parse_json_field loads (rowGetS row "rule")
  catalog.foldl (scanHeurStep loads cap row rule) st

/-- scan_logs with its final state exposed (the source keeps candidates,
counts and the correlation context as locals of one pass; the full state is
exposed so that properties about the context can be stated). -/
def scanLogsFull (loads : String → Option JVal) (catalog : List Heur) (rows : List Row)
    (cap : Int) : ScanState :=
  rows.foldl (scanRow loads catalog cap) { candidates := [], counts := [], ctx := ⟨none⟩ }

/-- scan_logs: the produced candidate list. -/
def scan_logs (loads : String → Option JVal) (catalog : List Heur) (rows : List Row)
    (cap : Int) : List Candidate :=
  (scanLogsFull loads catalog rows cap).candidates

/-! ## Concrete inputs used by witnesses and counterexamples -/

/-- A concrete stand-in for json.loads covering the agent payloads of the
geo-anomaly scenario. -/
def geoLoads : String → Option JVal := fun s =>
  if s = "a1" then some (.obj [("id", .str "a"), ("ip", .str "1.1.1.1")])
  else if s = "a2" then some (.obj [("id", .str "a"), ("ip", .str "2.2.2.2")])
  else if s = "a3" then some (.obj [("id", .str "a"), ("ip", .str "3.3.3.3")])
  else none

/-- The login_geo_anomaly entry of the HEURISTICS catalog. -/
def geoHeur : Heur :=
  { name := "login_geo_anomaly", matcher := some "login_geo_matcher", match_fields := [],
    keywords := [], all_keywords := [], exclude_keywords := [], severity := some "critical",
    detection_goal := some "Raise a very high alert when the same account authenticates from differing IPs within a short period.",
    example_completion := some "rule 100657" }

/-- Three records with the same agent identity and three distinct IPs. -/
def geoRows : List Row := [[("agent", "a1")], [("agent", "a2")], [("agent", "a3")]]

/-- The ransomware scenario alert of the spec. -/
def alertRansom : JVal := .obj [("ruleName", .str "Ransomware detected on host X")]

/-- An alert whose only field is an out-of-range integer severity. -/
def alertSev150 : JVal := .obj [("severity", .int 150)]

/-- An alert with a source IP entity and asset criticality 1. -/
def planAlertEx : JVal :=
  .obj [("entities", .obj [("srcIp", .str "10.0.0.5")]),
        ("context", .obj [("assetCriticality", .int 1)])]

/-- An assessment with severity 80 and (integral) confidence 1. -/
def planAssessEx : JVal := .obj [("severity", .int 80), ("confidence", .int 1)]

/-- The plan the rule planner produces for planAlertEx / planAssessEx. -/
def planEx : Plan :=
  mkPlanCore 80 ((1 : Int) : Rat) 1 false (some (.str "10.0.0.5")) none none (.str "unknown")

/-- The open-ticket action every strategy branch appends last. -/
def openTicketAction : PAction := _action "OpenTicket" "Create a tracking ticket." []

/-- The rollback a single forward action contributes (when its type has a
registered inverse): the inverse type with the same parameters. -/
def rollbackOf (a : PAction) : Option PAction :=
  (rollback_map a.type).map (fun rt => _action rt ("Rollback for " ++ a.type) a.parameters)

/-- A concrete plan standing in for a fresh planner result. -/
def planFresh : Plan :=
  { strategy := "NotifyOnly", priority := 40, actions := [], rollbackActions := [],
    tagsEnvironment := .str "unknown" }

/-- A concrete plan standing in for a previously cached result, distinct
from planFresh. -/
def planCached : Plan :=
  { strategy := "ObserveMore", priority := 10, actions := [], rollbackActions := [],
    tagsEnvironment := .str "unknown" }

/-- A concrete /v1/plan payload. -/
def payloadEx : JVal :=
  .obj [("alert", .obj [("ruleName", .str "x")]), ("assessment", .obj [("severity", .int 10)])]

/-! ## Theorems -/

/-- C9: for every string value of a rule/agent field, parse_json_field is
total (it returns a value for every input by construction) and maps both
the empty string and every string the JSON parser rejects to the empty
mapping, for every possible parser behavior. -/
theorem claim_c9 (loads : String → Option JVal) (value : String)
    (h : value = "" ∨ loads value = none) :
    parse_json_field loads value = .obj [] := by
  rcases h with h | h
  · simp [parse_json_field, h]
  · unfold parse_json_field
    by_cases hv : value = "" <;> simp [hv, h]

/-- Witness for C9 at a concrete non-JSON string and the everywhere-failing
parser. -/
theorem claim_c9_witness :
    parse_json_field (fun _ => none) "not json" = .obj [] :=
  claim_c9 (fun _ => none) "not json" (Or.inr rfl)

/-- C1 (amended): once a rule's emission count has reached a positive cap,
the scan loop skips the rule entirely for the record: no candidate is
emitted, no count changes, and the correlation context is not touched (so
stateful matchers stop updating their state, contrary to the original
claim). -/
theorem claim_c1_amended (loads : String → Option JVal) (cap : Int) (row : Row) (rule : JVal)
    (heur : Heur) (cands : List Candidate) (counts : List (String × Nat)) (ctx : Ctx)
    (h1 : 0 < cap) (h2 : cap ≤ (countsGet counts heur.name : Int)) :
    scanHeurStep loads cap row rule ⟨cands, counts, ctx⟩ heur = ⟨cands, counts, ctx⟩ := by
  unfold scanHeurStep
  exact if_pos ⟨h1, h2⟩

/-- Witness for the amended C1: a capped-out geo rule leaves the state of a
concrete record step untouched. -/
theorem claim_c1_witness :
    scanHeurStep geoLoads 1 [("agent", "a3")] (.obj [])
      ⟨[], [("login_geo_anomaly", 1)], ⟨some [(.str "a", .str "2.2.2.2")]⟩⟩ geoHeur =
      ⟨[], [("login_geo_anomaly", 1)], ⟨some [(.str "a", .str "2.2.2.2")]⟩⟩ :=
  claim_c1_amended geoLoads 1 [("agent", "a3")] (.obj []) geoHeur _ _ _ (by decide) (by decide)

/-- C1 counterexample: scanning the same three-record stream (one agent
identity, IPs 1.1.1.1, 2.2.2.2, 3.3.3.3) with the geo-anomaly rule leaves a
different correlation context under cap 1 than under no cap (cap 0): with
the cap the third record is skipped before the matcher runs, so the
identity's recorded IP stays 2.2.2.2 instead of advancing to 3.3.3.3 —
refuting the claim that the context is mutated exactly as with no cap. -/
theorem claim_c1_cex :
    (scanLogsFull geoLoads [geoHeur] geoRows 1).ctx ≠
      (scanLogsFull geoLoads [geoHeur] geoRows 0).ctx := by
  have h1 : (scanLogsFull geoLoads [geoHeur] geoRows 1).ctx =
      ⟨some [(.str "a", .str "2.2.2.2")]⟩ := rfl
  have h2 : (scanLogsFull geoLoads [geoHeur] geoRows 0).ctx =
      ⟨some [(.str "a", .str "3.3.3.3")]⟩ := rfl
  rw [h1, h2]
  intro h
  simp only [Ctx.mk.injEq, Option.some.injEq, List.cons.injEq, Prod.mk.injEq,
    JVal.str.injEq, and_true] at h
  exact absurd h.2 (by decide)

/-- C8: the hybrid planner invocation order and results: a first local
success is returned after one local call; on a local failure a configured
remote is tried and its success returned; on remote failure (or with no
remote) the local planner is invoked a second time and its result — ok or
error — is returned as is (the error propagates). -/
theorem claim_c8 {E P : Type} (localResults : Nat → Except E P) (remote : Option (Except E P)) :
    (∀ p, localResults 0 = .ok p →
      hybridPlan localResults remote = (.ok p, [.callLocal])) ∧
    (∀ e p, localResults 0 = .error e → remote = some (.ok p) →
      hybridPlan localResults remote = (.ok p, [.callLocal, .callRemote])) ∧
    (∀ e e2, localResults 0 = .error e → remote = some (.error e2) →
      hybridPlan localResults remote = (localResults 1, [.callLocal, .callRemote, .callLocal])) ∧
    (∀ e, localResults 0 = .error e → remote = none →
      hybridPlan localResults remote = (localResults 1, [.callLocal, .callLocal])) := by
  refine ⟨?_, ?_, ?_, ?_⟩
  · intro p h
    unfold hybridPlan
    rw [h]
  · intro e p h hr
    unfold hybridPlan
    rw [h, hr]
  · intro e e2 h hr
    unfold hybridPlan
    rw [h, hr]
  · intro e h hr
    unfold hybridPlan
    rw [h, hr]

/-- Witness for C8: a local planner that fails on its first call and
succeeds on its second, with a failing remote: the second local result is
returned after the call sequence local, remote, local. -/
theorem claim_c8_witness :
    hybridPlan (fun n => if n = 0 then Except.error 0 else Except.ok 7)
        (some (Except.error 1)) =
      (Except.ok 7, [.callLocal, .callRemote, .callLocal]) :=
  (claim_c8 (fun n => if n = 0 then Except.error 0 else Except.ok 7)
    (some (Except.error 1))).2.2.1 0 1 rfl rfl

/-- C2 (amended): the /v1/plan endpoint does not use the result cache at
all: the cache is returned unchanged, the response does not depend on the
cache contents (so no cache hit can short-circuit the planner chain), the
configured planner chain is invoked on every request and its success is
returned, and on any planner exception the RulePlanner fallback result is
returned. -/
theorem claim_c2_amended {γ : Type} (planner : JVal → JVal → Except Unit Plan)
    (cache cache2 : LruCache γ) (payload : JVal) :
    (plan_handler planner cache payload).2 = cache ∧
    (plan_handler planner cache payload).1 = (plan_handler planner cache2 payload).1 ∧
    (∀ p, planner (pyOrJ (jGet payload "alert") (.obj []))
        (pyOrJ (jGet payload "assessment") (.obj [])) = .ok p →
      (plan_handler planner cache payload).1 = some p) ∧
    (∀ e, planner (pyOrJ (jGet payload "alert") (.obj []))
        (pyOrJ (jGet payload "assessment") (.obj [])) = .error e →
      (plan_handler planner cache payload).1 =
        _plan_from_rules (pyOrJ (jGet payload "alert") (.obj []))
          (pyOrJ (jGet payload "assessment") (.obj []))) := by
  refine ⟨?_, ?_, ?_, ?_⟩
  · rcases h : planner (pyOrJ (jGet payload "alert") (.obj []))
      (pyOrJ (jGet payload "assessment") (.obj [])) with e | p <;> simp [plan_handler, h]
  · rcases h : planner (pyOrJ (jGet payload "alert") (.obj []))
      (pyOrJ (jGet payload "assessment") (.obj [])) with e | p <;> simp [plan_handler, h]
  · intro p h
    simp [plan_handler, h]
  · intro e h
    simp [plan_handler, h]

/-- Witness for the amended C2 at a concrete planner, payload and two
concrete caches (one empty, one pre-filled). -/
theorem claim_c2_witness :
    (plan_handler (fun _ _ => .ok planFresh)
        ((LruCache.mkCache Plan 256).set "K" planCached) payloadEx).2 =
      (LruCache.mkCache Plan 256).set "K" planCached ∧
    (plan_handler (fun _ _ => .ok planFresh)
        ((LruCache.mkCache Plan 256).set "K" planCached) payloadEx).1 =
      (plan_handler (fun _ _ => .ok planFresh) (LruCache.mkCache Plan 256) payloadEx).1 ∧
    (plan_handler (fun _ _ => .ok planFresh)
        ((LruCache.mkCache Plan 256).set "K" planCached) payloadEx).1 = some planFresh := by
  have h := claim_c2_amended (fun _ _ => .ok planFresh)
    ((LruCache.mkCache Plan 256).set "K" planCached) (LruCache.mkCache Plan 256) payloadEx
  exact ⟨h.1, h.2.1, h.2.2.1 planFresh rfl⟩

/-- C2 counterexample: a concrete plan request against a service whose
cache already holds an entry (under some key, with a plan different from
the planner's fresh result).  The handler still returns the fresh planner
result — no cache hit short-circuits the planner chain — and the cache
after the request is exactly the cache before it, still holding one entry
that is not the fresh plan, so the fresh plan was never written to the
cache.  This refutes the claim that plan requests are cache-checked like
score requests. -/
theorem claim_c2_cex :
    (plan_handler (fun _ _ => .ok planFresh)
        ((LruCache.mkCache Plan 256).set "K" planCached) payloadEx).1 = some planFresh ∧
    (plan_handler (fun _ _ => .ok planFresh)
        ((LruCache.mkCache Plan 256).set "K" planCached) payloadEx).2 =
      (LruCache.mkCache Plan 256).set "K" planCached ∧
    ((LruCache.mkCache Plan 256).set "K" planCached).store = [("K", planCached)] ∧
    planCached ≠ planFresh := by
  refine ⟨rfl, rfl, rfl, ?_⟩
  intro h
  exact absurd (congrArg Plan.strategy h) (by decide)

/-- C7 (amended): the plan priority is clamp(severity + criticality*10 +
int(confidence*20), 0, 100) where int() truncates toward zero — not the
exact arithmetic value of the claim; it lies in [0, 100], and it agrees
with the claim's exact clamped formula precisely when confidence*20 is an
integer. -/
theorem claim_c7_amended (s : Int) (q : Rat) (c : Int) :
    _compute_priority s q c = min (max (s + c * 10 + pyTrunc (q * 20)) 0) 100 ∧
    0 ≤ _compute_priority s q c ∧
    _compute_priority s q c ≤ 100 ∧
    (∀ k : Int, q * 20 = (k : Rat) →
      ((_compute_priority s q c : Int) : Rat) =
        min (max ((s : Rat) + (c : Rat) * 10 + q * 20) 0) 100) := by
  refine ⟨rfl, ?_, ?_, ?_⟩
  · exact le_min (le_max_right _ 0) (by norm_num)
  · exact min_le_right _ 100
  · intro k hk
    have ht : pyTrunc (q * 20) = k := by
      rw [hk]
      unfold pyTrunc
      by_cases hneg : ((k : Rat) < 0)
      · rw [if_pos hneg, Int.ceil_intCast]
      · rw [if_neg hneg, Int.floor_intCast]
    unfold _compute_priority
    rw [ht, hk]
    push_cast [Int.cast_min, Int.cast_max]
    ring_nf

/-- Witness for the amended C7 at severity 50, confidence 1/2,
criticality 1 (confidence*20 = 10 is integral, so the exact formula holds
and the priority is 70). -/
theorem claim_c7_witness :
    ((_compute_priority 50 (1/2 : Rat) 1 : Int) : Rat) =
      min (max ((50 : Rat) + (1 : Rat) * 10 + (1/2 : Rat) * 20) 0) 100 :=
  (claim_c7_amended 50 (1/2 : Rat) 1).2.2.2 10 (by norm_num)

/-- C7 counterexample: at severity 50, confidence 0.33, criticality 0 the
code's priority is 56 (int(0.33*20) = 6), while the claim's exact clamped
value is 56.6 — the claim fails whenever confidence*20 is not integral. -/
theorem claim_c7_cex :
    _compute_priority 50 (0.33 : Rat) 0 = 56 ∧
    ¬ ((_compute_priority 50 (0.33 : Rat) 0 : Int) : Rat) =
        min (max ((50 : Rat) + (0 : Rat) * 10 + (0.33 : Rat) * 20) 0) 100 := by
  have h6 : pyTrunc ((0.33 : Rat) * 20) = 6 := by
    unfold pyTrunc
    rw [if_neg (by norm_num)]
    rw [Int.floor_eq_iff]
    norm_num
  constructor
  · unfold _compute_priority
    rw [h6]
    norm_num [min_def, max_def]
  · unfold _compute_priority
    rw [h6]
    norm_num [min_def, max_def]

/-- C4: the strategy selection of RulePlanner is the fixed first-match
decision ladder — confidence < 0.30 gives ObserveMore; else (criticality
at least 4 or privileged) and confidence < 0.85 gives EscalateToHuman; else
confidence at least 0.85 and severity at least 70 gives ContainAndCollect;
else confidence at least 0.60 and severity at least 50 gives Contain; else
NotifyOnly — and the result is always exactly one of the five strategies
(the selection is a total function of the four inputs). -/
theorem claim_c4 (severity : Int) (confidence : Rat) (criticality : Int) (privileged : Bool) :
    (confidence < 0.3 →
      selectStrategy severity confidence criticality privileged = "ObserveMore") ∧
    (¬ confidence < 0.3 → (criticality ≥ 4 ∨ privileged = true) ∧ confidence < 0.85 →
      selectStrategy severity confidence criticality privileged = "EscalateToHuman") ∧
    (¬ confidence < 0.3 → ¬ ((criticality ≥ 4 ∨ privileged = true) ∧ confidence < 0.85) →
      confidence ≥ 0.85 ∧ severity ≥ 70 →
      selectStrategy severity confidence criticality privileged = "ContainAndCollect") ∧
    (¬ confidence < 0.3 → ¬ ((criticality ≥ 4 ∨ privileged = true) ∧ confidence < 0.85) →
      ¬ (confidence ≥ 0.85 ∧ severity ≥ 70) → confidence ≥ 0.6 ∧ severity ≥ 50 →
      selectStrategy severity confidence criticality privileged = "Contain") ∧
    (¬ confidence < 0.3 → ¬ ((criticality ≥ 4 ∨ privileged = true) ∧ confidence < 0.85) →
      ¬ (confidence ≥ 0.85 ∧ severity ≥ 70) → ¬ (confidence ≥ 0.6 ∧ severity ≥ 50) →
      selectStrategy severity confidence criticality privileged = "NotifyOnly") ∧
    selectStrategy severity confidence criticality privileged ∈
      ["ObserveMore", "EscalateToHuman", "ContainAndCollect", "Contain", "NotifyOnly"] := by
  unfold selectStrategy
  split_ifs with h1 h2 h3 h4 <;>
    refine ⟨?_, ?_, ?_, ?_, ?_, ?_⟩ <;> intros <;> simp_all

/-- Witness for C4: severity 80, confidence 0.9, criticality 1, not
privileged selects ContainAndCollect. -/
theorem claim_c4_witness :
    selectStrategy 80 (0.9 : Rat) 1 false = "ContainAndCollect" :=
  (claim_c4 80 (0.9 : Rat) 1 false).2.2.1 (by norm_num) (by norm_num) (by norm_num)

/-- C5 (amended): RuleScorer computes its result from the lower-cased
space-joined ruleName and type by first-match-wins keyword checks in the
fixed order (malware 85/0.85, brute force 60/0.70, scan 55/0.65, benign
20/0.20), each branch attaching its one-element evidence tag; when no
keyword matches it falls back to the alert's own severity field only when
that field is an int (Python bools included), with the value clamped to
[0, 100] (confidence 0.5), else the 40/0.5 default — the original claim's
unclamped "numeric severity field" fallback does not hold. -/
theorem claim_c5_amended (alert : JVal) (res : Int × Rat × String × List String)
    (h : _score_rules alert = some res) (text : String)
    (htext : _lower_text [get_path alert "ruleName", get_path alert "type"] = some text) :
    (malwareHit text = true →
      res = (85, 0.85, "Likely malware activity.", ["keyword:malware"])) ∧
    (malwareHit text = false → bruteHit text = true →
      res = (60, 0.7, "Possible brute-force attempts.", ["keyword:bruteforce"])) ∧
    (malwareHit text = false → bruteHit text = false → scanKeyHit text = true →
      res = (55, 0.65, "Possible scanning activity.", ["keyword:scan"])) ∧
    (malwareHit text = false → bruteHit text = false → scanKeyHit text = false →
      benignHit text = true →
      res = (20, 0.2, "Likely benign noise.", ["keyword:benign"])) ∧
    (∀ v, malwareHit text = false → bruteHit text = false → scanKeyHit text = false →
      benignHit text = false → get_path alert "severity" = some v → pyIsInstInt v = true →
      res = (min (max (pyIntOfInst v) 0) 100, 0.5, "Severity-based assessment.",
        ["source:severity"])) ∧
    (malwareHit text = false → bruteHit text = false → scanKeyHit text = false →
      benignHit text = false →
      (match get_path alert "severity" with
        | some v => pyIsInstInt v
        | none => false) = false →
      res = (40, 0.5, "Heuristic assessment.", ["source:default"])) := by
  simp only [_score_rules, htext] at h
  refine ⟨?_, ?_, ?_, ?_, ?_, ?_⟩
  · intro h1
    rw [h1] at h
    simp at h
    exact h.symm
  · intro h1 h2
    rw [h1, h2] at h
    simp at h
    exact h.symm
  · intro h1 h2 h3
    rw [h1, h2, h3] at h
    simp at h
    exact h.symm
  · intro h1 h2 h3 h4
    rw [h1, h2, h3, h4] at h
    simp at h
    exact h.symm
  · intro v h1 h2 h3 h4 hv hint
    rw [h1, h2, h3, h4, hv] at h
    simp at h
    cases v <;> simp_all [pyIsInstInt, pyIntOfInst]
  · intro h1 h2 h3 h4 hnum
    rw [h1, h2, h3, h4] at h
    simp at h
    rcases hv : get_path alert "severity" with _ | v
    · rw [hv] at h
      simp at h
      exact h.symm
    · rw [hv] at h
      rw [hv] at hnum
      cases v <;> simp_all [pyIsInstInt]

/-- Witness for the amended C5: the spec's ransomware scenario alert yields
severity 85, confidence 0.85, the malware hypothesis and the
keyword:malware evidence tag. -/
theorem claim_c5_witness :
    _score_rules alertRansom =
      some (85, 0.85, "Likely malware activity.", ["keyword:malware"]) := by
  have h0 : _score_rules alertRansom =
      some (85, 0.85, "Likely malware activity.", ["keyword:malware"]) := rfl
  have h := (claim_c5_amended alertRansom
    (85, 0.85, "Likely malware activity.", ["keyword:malware"]) h0
    "ransomware detected on host x " rfl).1 (by decide)
  rw [h0, h]

/-- C5 counterexample: an alert whose severity field is the integer 150
(and which matches no keyword) is scored with severity 100, not with the
alert's own severity value — the fallback clamps to [0, 100], so the claim
as stated fails at this input. -/
theorem claim_c5_cex :
    _score_rules alertSev150 =
      some (100, 0.5, "Severity-based assessment.", ["source:severity"]) ∧
    (100 : Int) ≠ 150 :=
  ⟨rfl, by decide⟩

/-- The rollback foldl of _build_rollbacks collects exactly the
filterMap of rollbackOf. -/
theorem rollbacks_foldl (l : List PAction) (acc : List PAction) :
    l.foldl
      (fun acc a =>
        match rollback_map a.type with
        | some rt => acc ++ [_action rt ("Rollback for " ++ a.type) a.parameters]
        | none => acc)
      acc = acc ++ l.filterMap rollbackOf := by
  induction l generalizing acc with
  | nil => simp
  | cons a l ih =>
      simp only [List.foldl_cons, List.filterMap_cons]
      rcases hr : rollback_map a.type with _ | rt <;>
        simp [rollbackOf, hr, ih]

/-- _build_rollbacks is the reverse-order filterMap of the registered
inverses, and never longer than the forward list. -/
theorem build_rollbacks_spec (acts : List PAction) :
    _build_rollbacks acts = acts.reverse.filterMap rollbackOf ∧
    (_build_rollbacks acts).length ≤ acts.length := by
  have he : _build_rollbacks acts = acts.reverse.filterMap rollbackOf := by
    unfold _build_rollbacks
    rw [rollbacks_foldl]
    simp
  refine ⟨he, ?_⟩
  rw [he]
  calc (acts.reverse.filterMap rollbackOf).length
      ≤ acts.reverse.length := List.length_filterMap_le _ _
    _ = acts.length := List.length_reverse _

/-- C6: in every plan the rule planner produces, rollbackActions is exactly
one inverse action per forward action whose type has a registered inverse,
carrying the same parameters, in reverse forward order (the reverse-order
filterMap of the inverse map), and hence never longer than the forward
action list. -/
theorem claim_c6 (alert assessment : JVal) (p : Plan)
    (h : _plan_from_rules alert assessment = some p) :
    p.rollbackActions = p.actions.reverse.filterMap rollbackOf ∧
    p.rollbackActions.length ≤ p.actions.length := by
  unfold _plan_from_rules at h
  split at h
  · replace h := Option.some.inj h
    subst h
    exact ⟨(build_rollbacks_spec _).1, (build_rollbacks_spec _).2⟩
  · exact absurd h (by simp)

/-- Witness for C6 at a concrete alert/assessment whose plan contains a
BlockIp forward action and its UnblockIp rollback. -/
theorem claim_c6_witness :
    planEx.rollbackActions = planEx.actions.reverse.filterMap rollbackOf ∧
    planEx.rollbackActions.length ≤ planEx.actions.length :=
  claim_c6 planAlertEx planAssessEx planEx rfl

/-- Every strategy branch of the action generation ends by appending the
open-ticket action, so the action list is nonempty and ticket creation is
last. -/
theorem mkPlanCore_actions_last (s : Int) (q : Rat) (cr : Int) (pr : Bool)
    (si un hi : Option JVal) (env : JVal) :
    (mkPlanCore s q cr pr si un hi env).actions ≠ [] ∧
    (mkPlanCore s q cr pr si un hi env).actions.getLast? = some openTicketAction := by
  unfold mkPlanCore openTicketAction
  dsimp only
  split_ifs <;> simp [List.getLast?_concat]

/-- C10: every plan the rule planner produces has a non-empty action list
whose final action is the OpenTicket action. -/
theorem claim_c10 (alert assessment : JVal) (p : Plan)
    (h : _plan_from_rules alert assessment = some p) :
    p.actions ≠ [] ∧ p.actions.getLast? = some openTicketAction := by
  unfold _plan_from_rules at h
  split at h
  · replace h := Option.some.inj h
    subst h
    exact mkPlanCore_actions_last _ _ _ _ _ _ _ _
  · exact absurd h (by simp)

/-- Witness for C10 at a concrete alert/assessment. -/
theorem claim_c10_witness :
    planEx.actions ≠ [] ∧ planEx.actions.getLast? = some openTicketAction :=
  claim_c10 planAlertEx planAssessEx planEx rfl

/-- assocFind misses on key-value lists built from keys a key is not
among. -/
theorem assocFind_map_of_not_mem {V : Type} (f : String → V) (l : List String) (key : String)
    (h : key ∉ l) :
    assocFind (l.map (fun k => (k, f k))) key = none := by
  induction l with
  | nil => rfl
  | cons a l ih =>
      simp only [List.map_cons, assocFind]
      rw [if_neg (fun hh : a = key => h (hh ▸ List.mem_cons_self a l))]
      exact ih (fun hm => h (List.mem_cons_of_mem a hm))

/-- assocFind hits with the generating value on key-value lists built from
keys the key is among. -/
theorem assocFind_map_of_mem {V : Type} (f : String → V) (l : List String) (key : String)
    (h : key ∈ l) :
    assocFind (l.map (fun k => (k, f k))) key = some (f key) := by
  induction l with
  | nil => cases h
  | cons a l ih =>
      simp only [List.map_cons, assocFind]
      by_cases hk : a = key
      · rw [if_pos hk, hk]
      · rw [if_neg hk]
        exact ih ((List.mem_cons.mp h).resolve_left (fun hh => hk hh.symm))

/-- The eviction loop is the identity while the key list fits the
capacity. -/
theorem evictWhile_of_le {V : Type} (store : List (String × V)) (order : List String)
    (maxSize : Nat) (h : order.length ≤ maxSize) :
    evictWhile store order maxSize = (store, order) := by
  cases order with
  | nil => rfl
  | cons o rest =>
      unfold evictWhile
      rw [if_neg (by simp at h; omega)]

/-- Inserting fresh, pairwise-distinct keys that fit the remaining capacity
never evicts: the store and key order extend by exactly the inserted
keys. -/
theorem insertAll_fresh {V : Type} (f : String → V) :
    ∀ (ks : List String) (c : LruCache V),
      c.store = c.order.map (fun k => (k, f k)) →
      (c.order ++ ks).Nodup →
      c.order.length + ks.length ≤ c.max_size →
      insertAll f c ks =
        { max_size := c.max_size, store := (c.order ++ ks).map (fun k => (k, f k)),
          order := c.order ++ ks } := by
  intro ks
  induction ks with
  | nil =>
      intro c h1 h2 h3
      simp only [insertAll, List.foldl_nil, List.append_nil]
      rw [← h1]
  | cons k ks ih =>
      intro c h1 h2 h3
      have hlen : c.order.length + (ks.length + 1) ≤ c.max_size := by
        simpa using h3
      have hknotin : k ∉ c.order := by
        intro hmem
        exact List.disjoint_of_nodup_append h2 hmem (List.mem_cons_self k ks)
      have hset : c.set k (f k) =
          { max_size := c.max_size, store := (c.order ++ [k]).map (fun k2 => (k2, f k2)),
            order := c.order ++ [k] } := by
        unfold LruCache.set
        rw [if_neg (by omega)]
        rw [h1, assocFind_map_of_not_mem f _ _ hknotin]
        simp only [Option.isSome_none, Bool.false_eq_true, if_false]
        rw [evictWhile_of_le _ _ _ (by simp; omega)]
        simp [List.map_append]
      have hstep : insertAll f c (k :: ks) = insertAll f (c.set k (f k)) ks := by
        simp [insertAll]
      rw [hstep, hset]
      rw [ih _ rfl (by simpa using h2) (by simp; omega)]
      simp


/-- C3: inserting capacity+1 pairwise-distinct keys into a fresh cache of
capacity at least 1 leaves exactly the last capacity keys: get of the first
key misses, get of the last key hits with its value, the eviction removed
exactly the single oldest-inserted key (the surviving order and store are
the tail of the insertion sequence, in insertion order — strict FIFO by
insertion), and re-setting an existing key of any cache updates its value
in place without changing the capacity or the eviction order.  (get is
embedded as a pure read, exactly as in the source, so it cannot mutate the
eviction ordering.) -/
theorem claim_c3 {V : Type} (f : String → V) (cap : Nat) (hcap : 1 ≤ cap) (ks : List String)
    (hlen : ks.length = cap + 1) (hnd : ks.Nodup) :
    (∀ k1, ks.head? = some k1 →
      (insertAll f (LruCache.mkCache V (cap : Int)) ks).get k1 = none) ∧
    (∀ kl, ks.getLast? = some kl →
      (insertAll f (LruCache.mkCache V (cap : Int)) ks).get kl = some (f kl)) ∧
    (insertAll f (LruCache.mkCache V (cap : Int)) ks).order = ks.tail ∧
    (insertAll f (LruCache.mkCache V (cap : Int)) ks).store =
      ks.tail.map (fun k => (k, f k)) ∧
    (∀ (c : LruCache V) (k : String) (v : V), 1 ≤ c.max_size →
      (assocFind c.store k).isSome = true →
      (c.set k v).order = c.order ∧ (c.set k v).max_size = c.max_size ∧
      (c.set k v).store = assocUpdate c.store k v) := by
  have hmk : LruCache.mkCache V (cap : Int) = ⟨cap, [], []⟩ := by
    unfold LruCache.mkCache
    have h1 : max ((cap : Int)) 0 = (cap : Int) := max_eq_left (by positivity)
    simp [h1]
  have hne : ks ≠ [] := by
    intro h
    rw [h] at hlen
    simp at hlen
  have hks : ks.dropLast ++ [ks.getLast hne] = ks := List.dropLast_append_getLast hne
  have hlen0 : ks.dropLast.length = cap := by
    rw [List.length_dropLast, hlen]
    omega
  have hnd' : (ks.dropLast ++ [ks.getLast hne]).Nodup := by
    rw [hks]
    exact hnd
  have hsplit : insertAll f (LruCache.mkCache V (cap : Int)) ks =
      (insertAll f (LruCache.mkCache V (cap : Int)) ks.dropLast).set (ks.getLast hne)
        (f (ks.getLast hne)) := by
    conv_lhs => rw [← hks]
    simp [insertAll, List.foldl_append]
  have hc1 : insertAll f (LruCache.mkCache V (cap : Int)) ks.dropLast =
      { max_size := cap, store := ks.dropLast.map (fun k => (k, f k)),
        order := ks.dropLast } := by
    rw [hmk]
    rw [insertAll_fresh f ks.dropLast ⟨cap, [], []⟩ rfl (by simpa using hnd'.of_append_left)
      (by simp [hlen0])]
    simp
  have hlastnotin : ks.getLast hne ∉ ks.dropLast := by
    intro hmem
    exact List.disjoint_of_nodup_append hnd' hmem (List.mem_cons_self _ [])
  obtain ⟨khead, ktail, hcons⟩ : ∃ a l, ks = a :: l := by
    cases ks with
    | nil => exact absurd rfl hne
    | cons a l => exact ⟨a, l, rfl⟩
  have hktail : ktail.length = cap := by
    rw [hcons] at hlen
    simpa using hlen
  have hordeq : ks.dropLast ++ [ks.getLast hne] = khead :: ktail := by rw [hks, hcons]
  have hstoreq : ks.dropLast.map (fun k => (k, f k)) ++
      [(ks.getLast hne, f (ks.getLast hne))] =
      (khead, f khead) :: ktail.map (fun k => (k, f k)) := by
    rw [show (khead, f khead) :: ktail.map (fun k => (k, f k)) =
      List.map (fun k => (k, f k)) (khead :: ktail) from rfl, ← hordeq, List.map_append]
    rfl
  have hevict : evictWhile ((khead, f khead) :: ktail.map (fun k => (k, f k)))
      (khead :: ktail) cap = (ktail.map (fun k => (k, f k)), ktail) := by
    unfold evictWhile
    rw [if_pos (by omega)]
    rw [show assocErase ((khead, f khead) :: ktail.map (fun k => (k, f k))) khead =
      ktail.map (fun k => (k, f k)) from by simp [assocErase]]
    exact evictWhile_of_le _ _ _ (le_of_eq hktail)
  have hfinal : insertAll f (LruCache.mkCache V (cap : Int)) ks =
      { max_size := cap, store := ktail.map (fun k => (k, f k)), order := ktail } := by
    rw [hsplit, hc1]
    unfold LruCache.set
    dsimp only
    rw [if_neg (by omega)]
    rw [assocFind_map_of_not_mem f _ _ hlastnotin]
    simp only [Option.isSome_none, Bool.false_eq_true, if_false]
    rw [hstoreq, hordeq, hevict]
  have hheadnotin : khead ∉ ktail := (List.nodup_cons.mp (hcons ▸ hnd)).1
  have hlastmem : ks.getLast hne ∈ ktail := by
    rcases hd : ks.dropLast with _ | ⟨a, as⟩
    · rw [hd] at hlen0
      simp at hlen0
      omega
    · rw [hd] at hordeq
      have h2 := (List.cons.injEq a (as ++ [ks.getLast hne]) khead ktail).mp hordeq
      rw [← h2.2]
      exact List.mem_append_right as (List.mem_cons_self _ [])
  refine ⟨?_, ?_, ?_, ?_, ?_⟩
  · intro k1 hk1
    rw [hcons] at hk1
    simp at hk1
    rw [hfinal]
    unfold LruCache.get
    dsimp only
    rw [← hk1]
    exact assocFind_map_of_not_mem f _ _ hheadnotin
  · intro kl hkl
    have hkl2 : kl = ks.getLast hne := by
      rw [List.getLast?_eq_getLast ks hne] at hkl
      exact (Option.some.inj hkl).symm
    rw [hfinal]
    unfold LruCache.get
    dsimp only
    rw [hkl2]
    exact assocFind_map_of_mem f _ _ hlastmem
  · rw [hfinal, hcons]
    rfl
  · rw [hfinal, hcons]
    rfl
  · intro c k v h1 h2
    unfold LruCache.set
    rw [if_neg (by omega), if_pos h2]
    exact ⟨rfl, rfl, rfl⟩

/-- Witness for C3 at capacity 1 and keys a, b: a is evicted, b survives. -/
theorem claim_c3_witness :
    (insertAll (fun _ => (0 : Nat)) (LruCache.mkCache Nat ((1 : Nat) : Int)) ["a", "b"]).get "a" =
      none ∧
    (insertAll (fun _ => (0 : Nat)) (LruCache.mkCache Nat ((1 : Nat) : Int)) ["a", "b"]).get "b" =
      some 0 ∧
    (insertAll (fun _ => (0 : Nat)) (LruCache.mkCache Nat ((1 : Nat) : Int)) ["a", "b"]).order =
      ["b"] := by
  have h := claim_c3 (fun _ => (0 : Nat)) 1 (by decide) ["a", "b"] (by decide) (by decide)
  exact ⟨h.1 "a" rfl, h.2.1 "b" rfl, h.2.2.1⟩
